import Mathlib

/-!
Shallow embedding of the `thymio-python` repository (packages `thymiodirect`
and `thymio`): the Aseba wire-protocol frame codec (`thymiodirect/message.py`),
the input reader (`thymiodirect/connection.py`, class `InputThread`), the
per-node mirror (`RemoteNode`), the dispatcher (`Connection.handle_message`),
the indexing interface (`Connection.__getitem__`, `Thymio.__getitem__`), and
the two copies of the VM assembler (`thymiodirect/assembler.py` and
`thymio/assembler.py`).

Modelling conventions, used throughout:
* Python byte strings are `List Nat` with entries below 256; 16-bit words on
  the wire are `Nat`; VM/assembler integer values are `Int`.
* Python's `x & 0xff`, `x & 0xfff`, `x & 0xffff` (mask with `2^k - 1`) are
  modelled as `x % 2^k`, which is equal for the nonnegative values and for
  Python's semantics of `&` on negative ints (two's complement);
  `base | (x & mask)` where `base` has no bits inside `mask` is modelled as
  `base + x % (mask+1)`, again equal.
* Python `dict` objects are association lists with insertion-order append on
  new keys and in-place update on existing keys.
* Fallible Python code (raising `KeyError`, `IndexError`, `TypeError`,
  `NameError`, or the assembler's `Exception` kinds) is modelled with
  `Except`; the human-readable message text and source line numbers carried
  by the Python exceptions are dropped, only the kind (and offending key or
  symbol) is kept.
* Time (`time.time()`) is an abstract tick counter `Nat` passed explicitly.
-/

namespace ThymioPy

/-- Python runtime errors raised by the code under consideration. -/
inductive PyErr where
  | keyError (key : String)
  | keyErrorNat (key : Nat)
  | indexError
  | typeError
  deriving Repr, DecidableEq

/-- Python `dict` as an insertion-ordered association list.
`d[k]` is `dget d k`; `d[k] = v` is `dset d k v`. -/
def dget {κ α : Type} [DecidableEq κ] : List (κ × α) → κ → Option α
  | [], _ => none
  | (k, v) :: rest, key => if k = key then some v else dget rest key

/-- Python `d[k] = v`: update in place if the key exists, append otherwise. -/
def dset {κ α : Type} [DecidableEq κ] : List (κ × α) → κ → α → List (κ × α)
  | [], key, v => [(key, v)]
  | (k, w) :: rest, key, v =>
    if k = key then (key, v) :: rest else (k, w) :: dset rest key v

theorem dget_dset_self {κ α : Type} [DecidableEq κ] (d : List (κ × α)) (k : κ) (v : α) :
    dget (dset d k v) k = some v := by
  induction d with
  | nil => simp [dget, dset]
  | cons hd tl ih =>
    by_cases h : hd.1 = k
    · simp [dget, dset, h]
    · simp [dget, dset, h, ih]

theorem dget_dset_ne {κ α : Type} [DecidableEq κ] (d : List (κ × α)) (k k' : κ) (v : α)
    (h : k ≠ k') : dget (dset d k v) k' = dget d k' := by
  induction d with
  | nil => simp [dget, dset, h]
  | cons hd tl ih =>
    by_cases hk : hd.1 = k
    · simp [dget, dset, hk, h]
    · by_cases hk' : hd.1 = k'
      · simp [dget, dset, hk, hk', Ne.symm h]
      · simp [dget, dset, hk, hk', ih]

/-! ## Frame codec — `thymiodirect/message.py` -/

/-- An Aseba message: `Message.__init__(self, id, source_node, payload)`.
`payload` is a byte string. -/
structure Message where
  id : Nat
  source_node : Nat
  payload : List Nat
  deriving Repr, DecidableEq

/-- `Message.uint16_to_bytes`: `bytes([word & 0xff, (word & 0xff00) // 256])`,
little-endian. -/
def uint16_to_bytes (word : Nat) : List Nat :=
  [word % 256, word / 256 % 256]

/-- `Message.uint16array_to_bytes`: concatenation of the 16-bit LE encodings. -/
def uint16array_to_bytes (a : List Nat) : List Nat :=
  a.flatMap uint16_to_bytes

/-- `Message.serialize`: payload length, source node, message id (each 16-bit
LE), then the raw payload. -/
def Message.serialize (m : Message) : List Nat :=
  uint16_to_bytes m.payload.length
    ++ uint16_to_bytes m.source_node
    ++ uint16_to_bytes m.id
    ++ m.payload

/-! ## Input reader — `thymiodirect/connection.py`, class `InputThread`

The transport (`self.io`) is a byte stream whose `read(n)` may return fewer
than `n` bytes (serial read timeout, TCP `recv`).  It is modelled as the
remaining byte sequence plus a schedule: the `i`-th entry of the schedule is
how many bytes the transport has available at the `i`-th `read` call, so
`read(n)` returns `min n kᵢ` bytes (an exhausted schedule or a `0` entry is a
read that returns no data, i.e. a timeout). -/

structure IOState where
  buffer : List Nat
  sched : List Nat
  deriving Repr, DecidableEq

/-- `self.io.read(n)`: returns at most `n` bytes, fewer if the transport has
fewer available at this call. -/
def ioRead (n : Nat) (st : IOState) : List Nat × IOState :=
  match st.sched with
  | [] => ([], st)
  | k :: ks =>
    let m := min n k
    (st.buffer.take m, ⟨st.buffer.drop m, ks⟩)

/-- `InputThread.read_uint16`: read 2 bytes; on a 1-byte short read, read the
missing byte with `read(1)`; an empty read raises `TimeoutError` (`none`). -/
def read_uint16 (st : IOState) : Option (Nat × IOState) :=
  match ioRead 2 st with
  | ([], _) => none
  | ([b0], st1) =>
    match ioRead 1 st1 with
    | ([], _) => none
    | (b1 :: _, st2) => some (b0 + 256 * b1, st2)
  | (b0 :: b1 :: _, st1) => some (b0 + 256 * b1, st1)

/-- `InputThread.read_message`: three 16-bit LE header words then a single
`read(payload_len)` for the payload (the payload read is not checked for a
short result). -/
def read_message (st : IOState) : Option (Message × IOState) :=
  match read_uint16 st with
  | none => none
  | some (payload_len, st) =>
    match read_uint16 st with
    | none => none
    | some (source_node, st) =>
      match read_uint16 st with
      | none => none
      | some (id, st) =>
        let (payload, st) := ioRead payload_len st
        some (⟨id, source_node, payload⟩, st)

/-- Transport schedule for one 16-bit header word: delivered either as one
2-byte chunk or as two 1-byte chunks. -/
def hdrSched (split : Bool) : List Nat :=
  if split then [1, 1] else [2]

theorem read_uint16_hdrSched (b0 b1 : Nat) (rest : List Nat) (split : Bool) (ks : List Nat) :
    read_uint16 ⟨b0 :: b1 :: rest, hdrSched split ++ ks⟩ = some (b0 + 256 * b1, ⟨rest, ks⟩) := by
  cases split <;> simp [read_uint16, ioRead, hdrSched]

theorem read_uint16_two (b0 b1 : Nat) (rest : List Nat) (ks : List Nat) :
    read_uint16 ⟨b0 :: b1 :: rest, 2 :: ks⟩ = some (b0 + 256 * b1, ⟨rest, ks⟩) := by
  simp [read_uint16, ioRead]

/-- C1: for a message whose header fields fit in 16 bits and whose payload has
length at most 65535, `serialize` produces exactly `6 + len(payload)` bytes —
the payload length, source node id and message id as 16-bit little-endian
words followed by the raw payload — and `read_message` on those bytes yields a
message equal to `m` in `id`, `source_node` and `payload`. -/
theorem c1_serialize_read_message_roundtrip (m : Message)
    (hid : m.id < 65536) (hsrc : m.source_node < 65536)
    (hlen : m.payload.length ≤ 65535) :
    m.serialize.length = 6 + m.payload.length ∧
    m.serialize = [m.payload.length % 256, m.payload.length / 256,
                   m.source_node % 256, m.source_node / 256,
                   m.id % 256, m.id / 256] ++ m.payload ∧
    read_message ⟨m.serialize, [2, 2, 2, m.payload.length]⟩ = some (m, ⟨[], []⟩) := by
  obtain ⟨i, s, p⟩ := m
  simp only [Message.serialize, uint16_to_bytes] at *
  refine ⟨by simp; omega, by simp; omega, ?_⟩
  have h6 : ∀ x : Nat, x < 65536 → x % 256 + 256 * (x / 256 % 256) = x := by
    intro x hx
    have : x / 256 % 256 = x / 256 := Nat.mod_eq_of_lt (by omega)
    rw [this]
    omega
  simp only [read_message, List.cons_append, List.nil_append]
  simp only [read_uint16_two]
  rw [h6 p.length (by omega), h6 s hsrc, h6 i hid]
  simp [ioRead]

/-- Closed instance of C1 at a concrete message. -/
theorem c1_serialize_read_message_roundtrip_witness :
    (Message.serialize ⟨0x900c, 7, [5, 0]⟩).length = 6 + 2 ∧
    Message.serialize ⟨0x900c, 7, [5, 0]⟩
      = [2, 0, 7, 0, 0x0c, 0x90] ++ [5, 0] ∧
    read_message ⟨Message.serialize ⟨0x900c, 7, [5, 0]⟩, [2, 2, 2, 2]⟩
      = some (⟨0x900c, 7, [5, 0]⟩, ⟨[], []⟩) :=
  c1_serialize_read_message_roundtrip ⟨0x900c, 7, [5, 0]⟩
    (by decide) (by decide) (by decide)

/-- C4 counterexample: the frame of the message `id=0x42, src=1, payload=[10, 20]`
delivered with its payload split across two reads (the transport has only one
byte available when `read(payload_len)` is issued).  `read_message` returns a
message whose payload is the truncated `[10]`, not `[10, 20]`: the reader does
not loop on a short payload read. -/
theorem c4_payload_split_counterexample :
    (Message.serialize ⟨0x42, 1, [10, 20]⟩).length = 8 ∧
    read_message ⟨Message.serialize ⟨0x42, 1, [10, 20]⟩, [2, 2, 2, 1, 1]⟩
      = some (⟨0x42, 1, [10]⟩, ⟨[20], [1]⟩) ∧
    (⟨0x42, 1, [10]⟩ : Message) ≠ ⟨0x42, 1, [10, 20]⟩ := by
  refine ⟨rfl, ?_, by decide⟩
  rfl

/-- C4 (amended): for a well-formed frame, the reader reassembles the
identical message for every delivery in which each of the three 16-bit header
words arrives either whole or as two 1-byte chunks, and the payload is
delivered by a single read; a payload split across reads is truncated
(see the counterexample). -/
theorem c4_header_splits_reassemble (m : Message)
    (hid : m.id < 65536) (hsrc : m.source_node < 65536)
    (hlen : m.payload.length ≤ 65535) (s1 s2 s3 : Bool) :
    read_message ⟨m.serialize, hdrSched s1 ++ hdrSched s2 ++ hdrSched s3 ++ [m.payload.length]⟩
      = some (m, ⟨[], []⟩) := by
  obtain ⟨i, s, p⟩ := m
  simp only [Message.serialize, uint16_to_bytes] at *
  have h6 : ∀ x : Nat, x < 65536 → x % 256 + 256 * (x / 256 % 256) = x := by
    intro x hx
    have : x / 256 % 256 = x / 256 := Nat.mod_eq_of_lt (by omega)
    rw [this]
    omega
  simp only [read_message, List.cons_append, List.nil_append]
  rw [show hdrSched s1 ++ hdrSched s2 ++ hdrSched s3 ++ [p.length]
      = hdrSched s1 ++ (hdrSched s2 ++ (hdrSched s3 ++ [p.length])) from by simp]
  simp only [read_uint16_hdrSched]
  rw [h6 p.length (by omega), h6 s hsrc, h6 i hid]
  simp [ioRead]

/-- Closed instance of the amended C4 with every header word split into
1-byte chunks. -/
theorem c4_header_splits_reassemble_witness :
    read_message ⟨Message.serialize ⟨0x42, 1, [10, 20]⟩, [1, 1, 1, 1, 1, 1, 2]⟩
      = some (⟨0x42, 1, [10, 20]⟩, ⟨[], []⟩) :=
  c4_header_splits_reassemble ⟨0x42, 1, [10, 20]⟩
    (by decide) (by decide) (by decide) true true true

/-! ## Node mirror — `thymiodirect/connection.py`, class `RemoteNode` -/

/-- `RemoteNode`: per-node capability descriptor and variable memory image.
Fields that `__init__` sets to `None` until the handshake fills them are
`Option`s.  `var_data` holds signed 16-bit words (`Int`). -/
structure RemoteNode where
  node_id : Option Nat
  version : Option Nat
  device_name : Option String
  device_uuid : Option String
  rf_network_id : Option Nat
  rf_node_id : Option Nat
  rf_channel : Option Nat
  last_msg_time : Nat
  handshake_done : Bool
  name : Option String
  bytecode_size : Option Nat
  stack_size : Option Nat
  max_var_size : Option Nat
  num_named_var : Option Nat
  num_local_events : Option Nat
  num_native_fun : Option Nat
  var_total_size : Nat
  named_variables : List String
  var_offset : List (String × Nat)
  var_size : List (String × Nat)
  var_data : List Int
  expected_var_end : Nat
  var_received : Bool
  local_events : List String
  native_functions : List String
  native_functions_arg_sizes : List (String × List Nat)
  deriving Repr, DecidableEq

/-- `RemoteNode.__init__(self, node_id=None, version=None)`. -/
def RemoteNode.init (node_id version : Option Nat) : RemoteNode where
  node_id := node_id
  version := version
  device_name := none
  device_uuid := none
  rf_network_id := none
  rf_node_id := none
  rf_channel := none
  last_msg_time := 0
  handshake_done := false
  name := none
  bytecode_size := none
  stack_size := none
  max_var_size := none
  num_named_var := none
  num_local_events := none
  num_native_fun := none
  var_total_size := 0
  named_variables := []
  var_offset := []
  var_size := []
  var_data := []
  expected_var_end := 0
  var_received := false
  local_events := []
  native_functions := []
  native_functions_arg_sizes := []

/-- `RemoteNode.add_var(name, size)`: append to the catalog, assign the offset
equal to the current `var_total_size`, record the size, grow
`var_total_size`.  The source performs no completeness check and cannot
fail. -/
def RemoteNode.add_var (n : RemoteNode) (name : String) (size : Nat) : RemoteNode :=
  { n with
    named_variables := n.named_variables ++ [name]
    var_offset := dset n.var_offset name n.var_total_size
    var_size := dset n.var_size name size
    var_total_size := n.var_total_size + size }

/-- `RemoteNode.reset_var_data()`: zero-filled mirror of length
`var_total_size`. -/
def RemoteNode.reset_var_data (n : RemoteNode) : RemoteNode :=
  { n with var_data := List.replicate n.var_total_size 0 }

/-- Python slice assignment `l[off : off + len(data)] = data` on a list
(nonnegative indices, clamped at the list length): the result can be longer
than `l` when the window reaches past the end of `l`. -/
def spliceList (l : List Int) (off : Nat) (data : List Int) : List Int :=
  l.take off ++ data ++ l.drop (off + data.length)

/-- `RemoteNode.get_var(name, index=0)`: `var_data[var_offset[name] + index]`;
`KeyError` on an unknown name, `IndexError` past the end. -/
def RemoteNode.get_var (n : RemoteNode) (name : String) (index : Nat) : Except PyErr Int :=
  match dget n.var_offset name with
  | none => .error (.keyError name)
  | some off =>
    match n.var_data.get? (off + index) with
    | some v => .ok v
    | none => .error .indexError

/-- `RemoteNode.get_var_array(name)`: explicit `KeyError(name)` if the name is
unknown, otherwise the slice `var_data[offset : offset + var_size[name]]`. -/
def RemoteNode.get_var_array (n : RemoteNode) (name : String) : Except PyErr (List Int) :=
  match dget n.var_offset name with
  | none => .error (.keyError name)
  | some off =>
    match dget n.var_size name with
    | none => .error (.keyError name)
    | some size => .ok ((n.var_data.drop off).take size)

/-- `RemoteNode.set_var(name, val, index=0)`:
`var_data[var_offset[name] + index] = val`. -/
def RemoteNode.set_var (n : RemoteNode) (name : String) (val : Int) (index : Nat) :
    Except PyErr RemoteNode :=
  match dget n.var_offset name with
  | none => .error (.keyError name)
  | some off =>
    if off + index < n.var_data.length then
      .ok { n with var_data := n.var_data.set (off + index) val }
    else
      .error .indexError

/-- `RemoteNode.set_var_array(name, val)`: slice assignment
`var_data[offset : offset + len(val)] = val`. -/
def RemoteNode.set_var_array (n : RemoteNode) (name : String) (val : List Int) :
    Except PyErr RemoteNode :=
  match dget n.var_offset name with
  | none => .error (.keyError name)
  | some off => .ok { n with var_data := spliceList n.var_data off val }

/-- `RemoteNode.set_var_data(offset, data)`: apply an inbound VARIABLES window
to the mirror and recompute `var_received`. -/
def RemoteNode.set_var_data (n : RemoteNode) (offset : Nat) (data : List Int) : RemoteNode :=
  { n with
    var_data := spliceList n.var_data offset data
    var_received := decide (offset + data.length ≥ n.expected_var_end) }

/-- The loop body of `RemoteNode.data_span_for_variables`, with the running
`(offset, length)` accumulator made explicit; the set of names is iterated in
some order given by the list. -/
def RemoteNode.data_span_loop (n : RemoteNode) :
    List String → Option Nat → Nat → Except PyErr (Option Nat × Nat)
  | [], offset, length => .ok (offset, length)
  | name :: rest, offset, length =>
    match dget n.var_offset name with
    | none => .error (.keyError name)
    | some voff =>
      match dget n.var_size name with
      | none => .error (.keyError name)
      | some vsize =>
        match offset with
        | none => n.data_span_loop rest (some voff) vsize
        | some off =>
          if voff < off then
            n.data_span_loop rest (some voff) (max (length + (off - voff)) vsize)
          else
            n.data_span_loop rest (some off) (max length (voff + vsize - off))

/-- `RemoteNode.data_span_for_variables(variables)`: offset and length of the
span covering the given variables; the offset is `None` for the empty set. -/
def RemoteNode.data_span_for_variables (n : RemoteNode) (vars : List String) :
    Except PyErr (Option Nat × Nat) :=
  n.data_span_loop vars none 0

/-- The offset of `name` in the catalog, defaulting to 0 (used only where a
hypothesis guarantees the name is present). -/
def RemoteNode.offv (n : RemoteNode) (name : String) : Nat :=
  (dget n.var_offset name).getD 0

/-- `offset + size` of `name`, defaulting to 0. -/
def RemoteNode.endv (n : RemoteNode) (name : String) : Nat :=
  (dget n.var_offset name).getD 0 + (dget n.var_size name).getD 0

theorem data_span_loop_ok (n : RemoteNode) (names : List String) (o L : Nat)
    (hpres : ∀ nm ∈ names, (dget n.var_offset nm).isSome ∧ (dget n.var_size nm).isSome) :
    n.data_span_loop names (some o) L
      = .ok (some (names.foldl (fun a nm => min a (n.offv nm)) o),
             names.foldl (fun a nm => max a (n.endv nm)) (o + L)
               - names.foldl (fun a nm => min a (n.offv nm)) o) := by
  induction names generalizing o L with
  | nil => simp [RemoteNode.data_span_loop]
  | cons nm rest ih =>
    obtain ⟨hoff, hsize⟩ := hpres nm (List.mem_cons_self nm rest)
    obtain ⟨voff, hvoff⟩ := Option.isSome_iff_exists.mp hoff
    obtain ⟨vsize, hvsize⟩ := Option.isSome_iff_exists.mp hsize
    have hov : n.offv nm = voff := by simp [RemoteNode.offv, hvoff]
    have hev : n.endv nm = voff + vsize := by simp [RemoteNode.endv, hvoff, hvsize]
    have hrest : ∀ nm' ∈ rest, (dget n.var_offset nm').isSome ∧ (dget n.var_size nm').isSome :=
      fun nm' h => hpres nm' (List.mem_cons_of_mem nm h)
    simp only [RemoteNode.data_span_loop, hvoff, hvsize, List.foldl_cons, hov, hev]
    by_cases hlt : voff < o
    · rw [if_pos hlt, ih _ _ hrest]
      have h1 : min o voff = voff := by omega
      have h2 : voff + max (L + (o - voff)) vsize = max (o + L) (voff + vsize) := by omega
      rw [h1, h2]
    · rw [if_neg hlt, ih _ _ hrest]
      have h1 : min o voff = o := by omega
      have h2 : o + max L (voff + vsize - o) = max (o + L) (voff + vsize) := by omega
      rw [h1, h2]

/-- C2: for every non-empty list of names all present in the catalog (the
Python argument is a set, so every iteration order is covered),
`data_span_for_variables` returns `(lo, hi - lo)` where `lo` is the minimum
variable offset and `hi` the maximum of `offset + size`: the smallest
contiguous window covering every variable in the set. -/
theorem c2_data_span_smallest_window (n : RemoteNode) (names : List String) (lo hi : Nat)
    (hpres : ∀ nm ∈ names, (dget n.var_offset nm).isSome ∧ (dget n.var_size nm).isSome)
    (hlo : (names.map n.offv).min? = some lo)
    (hhi : (names.map n.endv).max? = some hi) :
    n.data_span_for_variables names = .ok (some lo, hi - lo) := by
  cases names with
  | nil => simp at hlo
  | cons nm rest =>
    obtain ⟨hoff, hsize⟩ := hpres nm (List.mem_cons_self nm rest)
    obtain ⟨voff, hvoff⟩ := Option.isSome_iff_exists.mp hoff
    obtain ⟨vsize, hvsize⟩ := Option.isSome_iff_exists.mp hsize
    have hov : n.offv nm = voff := by simp [RemoteNode.offv, hvoff]
    have hev : n.endv nm = voff + vsize := by simp [RemoteNode.endv, hvoff, hvsize]
    have hrest : ∀ nm' ∈ rest, (dget n.var_offset nm').isSome ∧ (dget n.var_size nm').isSome :=
      fun nm' h => hpres nm' (List.mem_cons_of_mem nm h)
    simp only [RemoteNode.data_span_for_variables, RemoteNode.data_span_loop, hvoff, hvsize]
    rw [data_span_loop_ok n rest voff vsize hrest]
    have hlo' : rest.foldl (fun a nm' => min a (n.offv nm')) voff = lo := by
      have h : ((nm :: rest).map n.offv).min?
          = some ((rest.map n.offv).foldl min (n.offv nm)) := rfl
      rw [h, List.foldl_map, hov] at hlo
      exact Option.some.inj hlo
    have hhi' : rest.foldl (fun a nm' => max a (n.endv nm')) (voff + vsize) = hi := by
      have h : ((nm :: rest).map n.endv).max?
          = some ((rest.map n.endv).foldl max (n.endv nm)) := rfl
      rw [h, List.foldl_map, hev] at hhi
      exact Option.some.inj hhi
    rw [hlo', hhi']

/-- Closed instance of C2: catalog `a` at offset 0 size 2, `b` at offset 2
size 3, `c` at offset 5 size 1; the span of a set iterated as `[c, a]` is
`(0, 6)`. -/
theorem c2_data_span_smallest_window_witness :
    ((((RemoteNode.init none none).add_var "a" 2).add_var "b" 3).add_var
        "c" 1).data_span_for_variables ["c", "a"] = .ok (some 0, 6 - 0) :=
  c2_data_span_smallest_window _ ["c", "a"] 0 6 (by decide) (by decide) (by decide)

/-- The completeness test used by the dispatcher on NAMED_VARIABLE_DESCRIPTION:
`len(remote_node.named_variables) >= remote_node.num_named_var` (never true
before DESCRIPTION sets the count; comparing against Python `None` would raise
`TypeError`). -/
def RemoteNode.catalogComplete (n : RemoteNode) : Bool :=
  match n.num_named_var with
  | some k => decide (k ≤ n.named_variables.length)
  | none => false

/-- The NAMED_VARIABLE_DESCRIPTION dispatch step of `Connection.handle_message`
restricted to the mirror: `add_var` unconditionally, then zero the mirror
whenever the declared count is reached (the refresh-task spawn is handled by
the connection layer). -/
def dispatchNamedVar (n : RemoteNode) (name : String) (size : Nat) : Except PyErr RemoteNode :=
  let n' := n.add_var name size
  match n'.num_named_var with
  | none => .error .typeError
  | some k =>
    .ok (if k ≤ n'.named_variables.length then n'.reset_var_data else n')

/-- C3 counterexample: on a node whose catalog is already complete
(`num_named_var = 0` variables declared, 0 present), `add_var` does not fail:
it appends the variable exactly as in the incomplete case, and the dispatcher
path accepts the extra NAMED_VARIABLE_DESCRIPTION as well. -/
theorem c3_add_var_no_failure_counterexample :
    ({ RemoteNode.init (some 1) (some 5) with num_named_var := some 0 }).catalogComplete
        = true ∧
    ({ RemoteNode.init (some 1) (some 5) with num_named_var := some 0 }).add_var "x" 1
      = { RemoteNode.init (some 1) (some 5) with
          num_named_var := some 0
          named_variables := ["x"]
          var_offset := [("x", 0)]
          var_size := [("x", 1)]
          var_total_size := 1 } ∧
    dispatchNamedVar { RemoteNode.init (some 1) (some 5) with num_named_var := some 0 } "x" 1
      = .ok { RemoteNode.init (some 1) (some 5) with
              num_named_var := some 0
              named_variables := ["x"]
              var_offset := [("x", 0)]
              var_size := [("x", 1)]
              var_total_size := 1
              var_data := [0] } := by
  refine ⟨rfl, rfl, rfl⟩

/-- C3 (amended): `add_var(name, size)` appends `name` to the catalog, assigns
`var_offset[name]` equal to the current `var_total_size`, records
`var_size[name] = size` and increases `var_total_size` by `size`; it performs
no completeness check and never fails — a complete catalog keeps growing (and
the dispatcher re-zeroes the mirror each further time the count is
reached). -/
theorem c3_add_var_appends (n : RemoteNode) (name : String) (size : Nat) :
    (n.add_var name size).named_variables = n.named_variables ++ [name] ∧
    dget (n.add_var name size).var_offset name = some n.var_total_size ∧
    dget (n.add_var name size).var_size name = some size ∧
    (n.add_var name size).var_total_size = n.var_total_size + size :=
  ⟨rfl, dget_dset_self n.var_offset name n.var_total_size,
   dget_dset_self n.var_size name size, rfl⟩

/-! ## C8: the mirror length invariant

`ReachAny` is the state space the claim quantifies over: every state of a
`RemoteNode` reachable from a fresh node (with a declared variable count) by
arbitrary calls of `add_var`, `reset_var_data`, `set_var`, `set_var_array`
and `set_var_data`.  `ReachDisp` restricts the operations to the discipline
the dispatcher actually follows: variables are added through the
NAMED_VARIABLE_DESCRIPTION step (which re-zeroes the mirror on completion)
and every write stays inside the current mirror. -/

inductive ReachAny : RemoteNode → Prop where
  | init (k : Nat) (id v : Option Nat) :
      ReachAny { RemoteNode.init id v with num_named_var := some k }
  | add_var {n : RemoteNode} (name : String) (size : Nat) :
      ReachAny n → ReachAny (n.add_var name size)
  | reset_var_data {n : RemoteNode} :
      ReachAny n → ReachAny n.reset_var_data
  | set_var {n n' : RemoteNode} (name : String) (val : Int) (index : Nat) :
      ReachAny n → n.set_var name val index = .ok n' → ReachAny n'
  | set_var_array {n n' : RemoteNode} (name : String) (val : List Int) :
      ReachAny n → n.set_var_array name val = .ok n' → ReachAny n'
  | set_var_data {n : RemoteNode} (offset : Nat) (data : List Int) :
      ReachAny n → ReachAny (n.set_var_data offset data)

inductive ReachDisp : RemoteNode → Prop where
  | init (k : Nat) (id v : Option Nat) :
      ReachDisp { RemoteNode.init id v with num_named_var := some k }
  | namedVar {n n' : RemoteNode} (name : String) (size : Nat) :
      ReachDisp n → dispatchNamedVar n name size = .ok n' → ReachDisp n'
  | set_var {n n' : RemoteNode} (name : String) (val : Int) (index : Nat) :
      ReachDisp n → n.set_var name val index = .ok n' → ReachDisp n'
  | set_var_array {n n' : RemoteNode} (name : String) (val : List Int) (off : Nat) :
      ReachDisp n → dget n.var_offset name = some off →
      off + val.length ≤ n.var_data.length →
      n.set_var_array name val = .ok n' → ReachDisp n'
  | set_var_data {n : RemoteNode} (offset : Nat) (data : List Int) :
      ReachDisp n → offset + data.length ≤ n.var_data.length →
      ReachDisp (n.set_var_data offset data)

/-- The invariant claimed for the mirror. -/
def mirrorInv (n : RemoteNode) : Prop :=
  (n.catalogComplete = true → n.var_data.length = n.var_total_size) ∧
  (n.catalogComplete = false → n.var_data = [])

theorem spliceList_length (l : List Int) (off : Nat) (data : List Int)
    (h : off + data.length ≤ l.length) :
    (spliceList l off data).length = l.length := by
  simp [spliceList]
  omega

/-- C8 counterexample: `num_named_var = 1`; `add_var "x" 1` completes the
catalog, `reset_var_data` allocates `[0]`, and the unrestricted
`set_var_data(1, [5])` grows the mirror to `[0, 5]` — Python slice assignment
extends the list — so the reachable state has a complete catalog with
`len(var_data) = 2 ≠ var_total_size = 1`. -/
theorem c8_mirror_invariant_counterexample :
    ReachAny ((({ RemoteNode.init none none with num_named_var := some 1 }).add_var "x" 1
        |>.reset_var_data).set_var_data 1 [5]) ∧
    ((({ RemoteNode.init none none with num_named_var := some 1 }).add_var "x" 1
        |>.reset_var_data).set_var_data 1 [5]).catalogComplete = true ∧
    ((({ RemoteNode.init none none with num_named_var := some 1 }).add_var "x" 1
        |>.reset_var_data).set_var_data 1 [5]).var_data = [0, 5] ∧
    ((({ RemoteNode.init none none with num_named_var := some 1 }).add_var "x" 1
        |>.reset_var_data).set_var_data 1 [5]).var_total_size = 1 :=
  ⟨.set_var_data 1 [5] (.reset_var_data (.add_var "x" 1 (.init 1 none none))),
   rfl, rfl, rfl⟩

/-- C8 (amended): in every state reachable by the dispatcher's discipline —
NAMED_VARIABLE_DESCRIPTION steps, and writes whose window stays inside the
current mirror — `var_data` has length `var_total_size` once the catalog is
complete and is empty before; the unrestricted operation set of the original
claim can grow `var_data` past `var_total_size` (see the counterexample). -/
theorem c8_mirror_invariant (n : RemoteNode) (h : ReachDisp n) : mirrorInv n := by
  induction h with
  | init k id v =>
    constructor
    · intro hc
      simp only [RemoteNode.catalogComplete, RemoteNode.init] at hc ⊢
      simp at hc
      simp [RemoteNode.init, hc]
    · intro _
      rfl
  | namedVar name size hr hd ih =>
    rename_i n₀ n'
    simp only [dispatchNamedVar] at hd
    cases hnum : (n₀.add_var name size).num_named_var with
    | none => rw [hnum] at hd; exact absurd hd (by simp)
    | some k =>
      rw [hnum] at hd
      simp only [Except.ok.injEq] at hd
      by_cases hk : k ≤ (n₀.add_var name size).named_variables.length
      · rw [if_pos hk] at hd
        subst hd
        constructor
        · intro _
          simp [RemoteNode.reset_var_data, RemoteNode.add_var]
        · intro hc
          simp [RemoteNode.catalogComplete, RemoteNode.reset_var_data, hnum, hk] at hc
      · rw [if_neg hk] at hd
        subst hd
        constructor
        · intro hc
          simp [RemoteNode.catalogComplete, hnum] at hc
          omega
        · intro _
          have hn₀ : n₀.catalogComplete = false := by
            have hnum₀ : n₀.num_named_var = some k := hnum
            simp only [RemoteNode.catalogComplete, hnum₀]
            simp only [RemoteNode.add_var, List.length_append] at hk
            simp
            omega
          have := ih.2 hn₀
          simpa [RemoteNode.add_var] using this
  | set_var name val index hr heq ih =>
    rename_i n₀ n'
    simp only [RemoteNode.set_var] at heq
    cases hoff : dget n₀.var_offset name with
    | none => rw [hoff] at heq; exact absurd heq (by simp)
    | some off =>
      simp only [hoff] at heq
      by_cases hin : off + index < n₀.var_data.length
      · rw [if_pos hin] at heq
        simp only [Except.ok.injEq] at heq
        subst heq
        constructor
        · intro hc
          have hc₀ : n₀.catalogComplete = true := hc
          simpa using ih.1 hc₀
        · intro hc
          have hc₀ : n₀.catalogComplete = false := hc
          have := ih.2 hc₀
          simp [this]
      · rw [if_neg hin] at heq
        exact absurd heq (by simp)
  | set_var_array name val off hr hoff hin heq ih =>
    rename_i n₀ n'
    simp only [RemoteNode.set_var_array, hoff, Except.ok.injEq] at heq
    subst heq
    constructor
    · intro hc
      have hc₀ : n₀.catalogComplete = true := hc
      have hlen := spliceList_length n₀.var_data off val hin
      simpa [hlen] using ih.1 hc₀
    · intro hc
      have hc₀ : n₀.catalogComplete = false := hc
      have hd := ih.2 hc₀
      simp only [hd, List.length_nil, Nat.le_zero] at hin
      have hv : val = [] := List.length_eq_zero.mp (by omega)
      simp [spliceList, hd, hv]
  | set_var_data offset data hr hin ih =>
    rename_i n₀
    constructor
    · intro hc
      have hc₀ : n₀.catalogComplete = true := hc
      have hlen := spliceList_length n₀.var_data offset data hin
      simpa [RemoteNode.set_var_data, hlen] using ih.1 hc₀
    · intro hc
      have hc₀ : n₀.catalogComplete = false := hc
      have hd := ih.2 hc₀
      simp only [hd, List.length_nil, Nat.le_zero] at hin
      have hv : data = [] := List.length_eq_zero.mp (by omega)
      simp [RemoteNode.set_var_data, spliceList, hd, hv]

/-- Closed instance of the amended C8 at a freshly initialised node. -/
theorem c8_mirror_invariant_witness :
    mirrorInv { RemoteNode.init none none with num_named_var := some 2 } :=
  c8_mirror_invariant _ (ReachDisp.init 2 none none)

/-! ## Session engine — `thymiodirect/connection.py`, class `Connection`

`handle_message` is modelled as a pure step function on the connection state.
Outbound sends (`self.send(...)`) and callback invocations are recorded as an
event list; the refresh coroutine created when a catalog completes is recorded
as a `spawnRefresh` event.  The decoded message (`msg.decode()` in
`message.py`) is represented by the inductive `DMsg` of decoded views, one per
branch of `handle_message`, with the source node id passed separately. -/

def ID_FIRST_ASEBA_ID : Nat := 0x8000
def ID_GET_NODE_DESCRIPTION : Nat := 0xa010
def ID_GET_DEVICE_INFO : Nat := 0xa012
def PROTOCOL_VERSION : Nat := 5
def DEVICE_INFO_UUID : Nat := 1
def DEVICE_INFO_NAME : Nat := 2
def DEVICE_INFO_THYMIO2_RF_SETTINGS : Nat := 3

/-- Connection state touched by the dispatcher.  The four `has_on_*` flags
record whether the corresponding user callback is set (non-`None`). -/
structure Conn where
  host_node_id : Nat
  auto_handshake : Bool
  remote_nodes : List (Nat × RemoteNode)
  remote_node_set : List Nat
  has_on_connection_changed : Bool
  has_on_variables_received : Bool
  has_on_execution_state_changed : Bool
  has_on_user_event : Bool
  deriving Repr, DecidableEq

/-- Observable effects of one dispatch step: outbound messages (message id and
16-bit payload words), task spawns, and callback invocations. -/
inductive Event where
  | send (msgId : Nat) (payloadWords : List Nat)
  | spawnRefresh (node : Nat)
  | connectionChanged (node : Nat) (connected : Bool)
  | variablesReceived (node : Nat)
  | executionStateChanged (node : Nat) (pc : Nat) (flags : Nat)
  | userEvent (node : Nat) (eventId : Nat) (args : List Nat)
  deriving Repr, DecidableEq

/-- Decoded inbound messages, one constructor per branch of `handle_message`
(`deviceInfoOther` is a DEVICE_INFO with an unrecognised kind byte, `other`
any id at or above `ID_FIRST_ASEBA_ID` with no branch). -/
inductive DMsg where
  | nodePresent (version : Nat)
  | deviceInfoName (device_name : String)
  | deviceInfoUuid (device_uuid : String)
  | deviceInfoRf (network_id node_id channel : Nat)
  | deviceInfoOther
  | description (node_name : String)
      (bytecode_size stack_size max_var_size num_named_var
        num_local_events num_native_fun : Nat)
  | namedVariableDescription (var_size : Nat) (var_name : String)
  | localEventDescription (event_name : String)
  | nativeFunctionDescription (fun_name : String) (param_sizes : List Nat)
  | variables (var_offset : Nat) (var_data : List Int)
  | executionStateChanged (pc : Nat) (flags : Nat)
  | userEvent (eventId : Nat) (args : List Nat)
  | other (msgId : Nat)
  deriving Repr, DecidableEq

/-- `self.remote_nodes[source_node]`: `KeyError` on an unknown id. -/
def getNode (c : Conn) (src : Nat) : Except PyErr RemoteNode :=
  match dget c.remote_nodes src with
  | some node => .ok node
  | none => .error (.keyErrorNat src)

def storeNode (c : Conn) (src : Nat) (n : RemoteNode) : Conn :=
  { c with remote_nodes := dset c.remote_nodes src n }

/-- The final statement of `handle_message`:
`self.remote_nodes[source_node].last_msg_time = time.time()` — a `KeyError`
if the source is still unknown at this point. -/
def touchSource (c : Conn) (src now : Nat) (evs : List Event) :
    Except PyErr (Conn × List Event) :=
  match dget c.remote_nodes src with
  | some node => .ok (storeNode c src { node with last_msg_time := now }, evs)
  | none => .error (.keyErrorNat src)

/-- The `if/elif` chain of `Connection.handle_message`, before the final
`last_msg_time` update. -/
def handle_message_body (c : Conn) (src : Nat) (msg : DMsg) :
    Except PyErr (Conn × List Event) :=
  match msg with
  | .nodePresent version =>
    let unknown := (dget c.remote_nodes src).isNone
    let c' := if unknown
      then storeNode c src (RemoteNode.init (some src) (some version)) else c
    let will_do_handshake := unknown && c.auto_handshake
    let evs := if will_do_handshake then
        (if version ≥ 6 then
          [Event.send ID_GET_DEVICE_INFO [src, DEVICE_INFO_NAME],
           Event.send ID_GET_DEVICE_INFO [src, DEVICE_INFO_THYMIO2_RF_SETTINGS],
           Event.send ID_GET_DEVICE_INFO [src, DEVICE_INFO_UUID]]
         else [])
        ++ [Event.send ID_GET_NODE_DESCRIPTION [src, PROTOCOL_VERSION]]
      else []
    .ok (c', evs)
  | .deviceInfoName dname => do
    let node ← getNode c src
    .ok (storeNode c src { node with device_name := some dname }, [])
  | .deviceInfoUuid u => do
    let node ← getNode c src
    .ok (storeNode c src { node with device_uuid := some u }, [])
  | .deviceInfoRf network_id node_id channel => do
    let node ← getNode c src
    .ok (storeNode c src
      { node with
        rf_network_id := some network_id
        rf_node_id := some node_id
        rf_channel := some channel }, [])
  | .deviceInfoOther => do
    let _ ← getNode c src
    .ok (c, [])
  | .description node_name bcs ss mvs nnv nle nnf => do
    let node ← getNode c src
    .ok (storeNode c src
      { node with
        name := some node_name
        bytecode_size := some bcs
        stack_size := some ss
        max_var_size := some mvs
        num_named_var := some nnv
        num_local_events := some nle
        num_native_fun := some nnf }, [])
  | .namedVariableDescription var_size var_name => do
    let node ← getNode c src
    let node' ← dispatchNamedVar node var_name var_size
    .ok (storeNode c src node',
         if node'.catalogComplete then [Event.spawnRefresh src] else [])
  | .localEventDescription event_name => do
    let node ← getNode c src
    .ok (storeNode c src { node with local_events := node.local_events ++ [event_name] }, [])
  | .nativeFunctionDescription fun_name param_sizes => do
    let node ← getNode c src
    let node' := { node with
      native_functions := node.native_functions ++ [fun_name]
      native_functions_arg_sizes :=
        dset node.native_functions_arg_sizes fun_name param_sizes }
    match node'.num_native_fun with
    | none => .error .typeError
    | some k =>
      if k ≤ node'.native_functions.length then
        let node'' := { node' with handshake_done := true }
        if src ∈ c.remote_node_set then
          .ok (storeNode c src node'', [])
        else
          .ok ({ storeNode c src node'' with
                 remote_node_set := c.remote_node_set ++ [src] },
               if c.has_on_connection_changed
                 then [Event.connectionChanged src true] else [])
      else
        .ok (storeNode c src node', [])
  | .variables var_offset var_data => do
    let node ← getNode c src
    let node' := node.set_var_data var_offset var_data
    .ok (storeNode c src node',
         if c.has_on_variables_received && node'.var_received
           then [Event.variablesReceived src] else [])
  | .executionStateChanged pc flags =>
    .ok (c, if c.has_on_execution_state_changed
      then [Event.executionStateChanged src pc flags] else [])
  | .userEvent eventId args =>
    .ok (c, if c.has_on_user_event then [Event.userEvent src eventId args] else [])
  | .other _ =>
    .ok (c, [])

/-- `Connection.handle_message(msg)`: the branch on the message id, then the
unconditional `last_msg_time` update on the source node. -/
def Connection.handle_message (c : Conn) (src : Nat) (msg : DMsg) (now : Nat) :
    Except PyErr (Conn × List Event) := do
  let (c', evs) ← handle_message_body c src msg
  touchSource c' src now evs

theorem touchSource_last_msg (c : Conn) (src now : Nat) (evs : List Event)
    (c' : Conn) (evs' : List Event)
    (h : touchSource c src now evs = .ok (c', evs')) :
    ∃ node, dget c'.remote_nodes src = some node ∧ node.last_msg_time = now := by
  unfold touchSource at h
  cases hg : dget c.remote_nodes src with
  | none => rw [hg] at h; exact absurd h (by simp)
  | some node =>
    rw [hg] at h
    simp only [Except.ok.injEq, Prod.mk.injEq] at h
    obtain ⟨hc, _⟩ := h
    refine ⟨{ node with last_msg_time := now }, ?_, rfl⟩
    rw [← hc]
    exact dget_dset_self c.remote_nodes src _

/-- C9 counterexample: a decoded VARIABLES message from a source that is not
in `remote_nodes` makes `handle_message` raise `KeyError` (here at the final
`last_msg_time` update); nothing is updated, so the claim's "for every inbound
message, regardless of whether its source node id is already present" fails. -/
theorem c9_unknown_source_counterexample :
    Connection.handle_message ⟨1, false, [], [], true, true, true, true⟩ 2
        (.variables 0 [1]) 100
      = .error (.keyErrorNat 2) := by
  rfl

/-- C9 (amended): `handle_message` completes only when the source node is
already in `remote_nodes` or the message is NODE_PRESENT (which inserts it);
whenever it completes, it has set the source node's `last_msg_time` to the
current time, whatever the message id. -/
theorem c9_last_msg_time_on_success (c : Conn) (src : Nat) (msg : DMsg) (now : Nat)
    (c' : Conn) (evs : List Event)
    (h : Connection.handle_message c src msg now = .ok (c', evs)) :
    ∃ node, dget c'.remote_nodes src = some node ∧ node.last_msg_time = now := by
  unfold Connection.handle_message at h
  cases hb : handle_message_body c src msg with
  | error e => rw [hb] at h; exact Except.noConfusion h
  | ok p =>
    rw [hb] at h
    obtain ⟨c₂, evs₂⟩ := p
    exact touchSource_last_msg c₂ src now evs₂ c' evs h

/-- Closed instance of the amended C9: an unhandled message id (0x900e) from a
known node still refreshes `last_msg_time`. -/
theorem c9_last_msg_time_on_success_witness :
    ∃ node,
      dget (⟨1, false, [(2, { RemoteNode.init (some 2) (some 5) with last_msg_time := 42 })],
              [], true, true, true, true⟩ : Conn).remote_nodes 2 = some node ∧
      node.last_msg_time = 42 :=
  c9_last_msg_time_on_success
    ⟨1, false, [(2, { RemoteNode.init (some 2) (some 5) with last_msg_time := 7 })],
     [], true, true, true, true⟩ 2 (.other 0x900e) 42
    ⟨1, false, [(2, { RemoteNode.init (some 2) (some 5) with last_msg_time := 42 })],
     [], true, true, true, true⟩ [] rfl

/-! ## Index interface — `Connection.__getitem__` / `Thymio.__getitem__` -/

/-- A Python value returned by the index interface: a list of words or a bare
scalar. -/
inductive PyVal where
  | int (v : Int)
  | list (l : List Int)
  deriving Repr, DecidableEq

/-- `Connection.get_var_array(target_node_id, name)`: node lookup (a plain
`KeyError` on an unknown node id), then the node-level `get_var_array` with
`except KeyError: raise KeyError(name)`. -/
def Connection.get_var_array (c : Conn) (target_node_id : Nat) (name : String) :
    Except PyErr (List Int) :=
  match dget c.remote_nodes target_node_id with
  | none => .error (.keyErrorNat target_node_id)
  | some node =>
    match node.get_var_array name with
    | .ok val => .ok val
    | .error _ => .error (.keyError name)

/-- `Connection.__getitem__(key).__getitem__(name)`:
`val = get_var_array(...); return val if len(val) != 1 else val[0]`, with
`except KeyError: raise KeyError(name)`. -/
def Connection.getitem (c : Conn) (node_id : Nat) (name : String) : Except PyErr PyVal :=
  match Connection.get_var_array c node_id name with
  | .ok val => .ok (if val.length ≠ 1 then .list val else .int val.headI)
  | .error (.keyError _) => .error (.keyError name)
  | .error (.keyErrorNat _) => .error (.keyError name)
  | .error e => .error e

/-- `Thymio.__getitem__(key).__getitem__(name)` delegates to
`self.thymio_proxy.connection.get_var_array` and applies the same length-1
collapse and `KeyError(name)` re-raise. -/
def Thymio.getitem (connection : Conn) (node_id : Nat) (name : String) : Except PyErr PyVal :=
  Connection.getitem connection node_id name

/-- C10: through `connection[node_id][name]` (and identically through
`Thymio.__getitem__`), a known variable reads as the mirror slice
`var_data[offset : offset + size]` when that slice's length differs from 1,
and collapses to the bare single element when the slice has length exactly 1;
an unknown name raises `KeyError(name)`. -/
theorem c10_getitem_scalar_collapse (c : Conn) (node_id : Nat) (node : RemoteNode)
    (name : String) (hn : dget c.remote_nodes node_id = some node) :
    (dget node.var_offset name = none →
      Connection.getitem c node_id name = .error (.keyError name)) ∧
    (∀ off size, dget node.var_offset name = some off →
      dget node.var_size name = some size →
      Connection.getitem c node_id name
        = .ok (if ((node.var_data.drop off).take size).length ≠ 1
            then .list ((node.var_data.drop off).take size)
            else .int ((node.var_data.drop off).take size).headI)) ∧
    Thymio.getitem c node_id name = Connection.getitem c node_id name := by
  refine ⟨?_, ?_, rfl⟩
  · intro hoff
    simp [Connection.getitem, Connection.get_var_array, hn, RemoteNode.get_var_array, hoff]
  · intro off size hoff hsize
    simp [Connection.getitem, Connection.get_var_array, hn, RemoteNode.get_var_array,
      hoff, hsize]

/-- A test mirror for the closed instance of C10: `x` is a 1-word variable
at offset 0, `y` a 3-word array at offset 1, mirror `[10, 20, 30, 40]`. -/
def c10TestNode : RemoteNode :=
  { ((RemoteNode.init (some 2) (some 5)).add_var "x" 1).add_var "y" 3 with
    var_data := [10, 20, 30, 40] }

def c10TestConn : Conn :=
  ⟨1, false, [(2, c10TestNode)], [], true, true, true, true⟩

/-- Closed instance of C10: `x` collapses to the scalar `10`, `y` stays the
list `[20, 30, 40]`, the unknown `z` raises `KeyError("z")`. -/
theorem c10_getitem_scalar_collapse_witness :
    Connection.getitem c10TestConn 2 "x" = .ok (.int 10) ∧
    Connection.getitem c10TestConn 2 "y" = .ok (.list [20, 30, 40]) ∧
    Connection.getitem c10TestConn 2 "z" = .error (.keyError "z") := by
  refine ⟨?_, ?_, ?_⟩
  · have h := (c10_getitem_scalar_collapse c10TestConn 2 c10TestNode "x" rfl).2.1 0 1 rfl rfl
    simpa [c10TestNode] using h
  · have h := (c10_getitem_scalar_collapse c10TestConn 2 c10TestNode "y" rfl).2.1 1 3 rfl rfl
    simpa [c10TestNode] using h
  · exact (c10_getitem_scalar_collapse c10TestConn 2 c10TestNode "z" rfl).1 rfl

/-! ## Assembler — `thymiodirect/assembler.py` (namespace `AsmDirect`) and
`thymio/assembler.py` (namespace `AsmThymio`)

The textual layer is modelled at the granularity the source's regexes
extract: a source line is blank (not represented), a lone label, or an
optional label plus an opcode and its comma/space-separated arguments, each
argument already converted by `int(a, 0) if re_number.match(a) else a` into
either an integer (`Arg.num`) or a string expression (`Arg.sym`).  Error
line numbers and message strings are dropped; only the error kind (and the
offending symbol) is kept. -/

/-- The assembler's error kinds (each a Python `Exception` in the source,
distinguished by its message), plus the Python runtime errors the encoders
can raise. -/
inductive AsmErr where
  | parseError
  | valueError
  | unknownSymbol (name : String)
  | smallIntOverflow
  | dataAddrRange
  | eventIdRange
  | nativeIdRange
  | subAddrRange
  | notImplemented
  | noLabelForEqu
  | unknownInstruction (name : String)
  | unknownOp (name : String)
  | indexError
  | nameError (name : String)
  deriving Repr, DecidableEq

/-- A pre-converted instruction argument: an integer literal or a symbolic
expression string. -/
inductive Arg where
  | num (n : Int)
  | sym (s : String)
  deriving Repr, DecidableEq

/-- The assembler's `defs` dict. -/
abbrev Defs := List (String × Int)

/-- Python `x & (2^w - 1)` on an `int` (two's complement on negatives):
`x mod 2^w`, always in `[0, 2^w)`. -/
def pyMask (x : Int) (w : Nat) : Nat :=
  (x % ((2 : Int) ^ w)).toNat

/-- A character matched by the term class `[._a-z0-9]` under `re.I`. -/
def isSymChar (c : Char) : Bool :=
  c = '.' || c = '_' || c.isAlpha || c.isDigit

def isHexChar (c : Char) : Bool :=
  c.isDigit || ('a' ≤ c && c ≤ 'f') || ('A' ≤ c && c ≤ 'F')

def hexVal (c : Char) : Nat :=
  if c.isDigit then c.toNat - '0'.toNat
  else if 'a' ≤ c && c ≤ 'f' then c.toNat - 'a'.toNat + 10
  else c.toNat - 'A'.toNat + 10

/-- The numeric-literal test `^(0x[0-9a-f]+|[0-9]+)$` under `re.I`. -/
def isNumLiteral (cs : List Char) : Bool :=
  match cs with
  | '0' :: x :: rest =>
    if x = 'x' || x = 'X' then !rest.isEmpty && rest.all isHexChar
    else cs.all Char.isDigit
  | _ => !cs.isEmpty && cs.all Char.isDigit

/-- Python `int(name, 0)` on a string matching the numeric-literal test:
hex after `0x`, decimal otherwise; base 0 rejects a redundant leading zero
(`ValueError`). -/
def parseNumLiteral (cs : List Char) : Except AsmErr Int :=
  match cs with
  | '0' :: x :: rest =>
    if x = 'x' || x = 'X' then
      .ok (rest.foldl (fun acc c => acc * 16 + hexVal c) 0)
    else if rest.isEmpty && x = '0' then
      .error .valueError
    else if cs.all Char.isDigit then
      .error .valueError
    else
      .error .parseError
  | _ => .ok (cs.foldl (fun acc c => acc * 10 + (c.toNat - '0'.toNat)) 0)

namespace AsmDirect

/-- `resolve_def` inside `resolve_symbol` (`thymiodirect/assembler.py`):
unknown-symbol resolution returns 0 when not `required` (pass 0), parses a
numeric literal, then looks the name up in `defs`. -/
def resolve_def (defs : Defs) (required : Bool) (name : String) : Except AsmErr Int :=
  if !required then .ok 0
  else if isNumLiteral name.toList then parseNumLiteral name.toList
  else
    match dget defs name with
    | some v => .ok v
    | none => .error (.unknownSymbol name)

/-- The expression loop of `resolve_symbol`: scan `+`, `-` and
`[._a-z0-9]+` (case-insensitive) tokens, adding each resolved term with the
sign selected by the last `+`/`-` seen; any other character is a syntax
error.  Every loop step consumes at least one character, so the recursion is
driven by a fuel counter initialised to the string length (the fuel-exhausted
arm is unreachable on those calls). -/
def evalArgExpr (defs : Defs) (required : Bool) :
    Nat → List Char → Bool → Int → Except AsmErr Int
  | _, [], _, val => .ok val
  | 0, _ :: _, _, _ => .error .parseError
  | fuel + 1, '+' :: rest, _, val => evalArgExpr defs required fuel rest false val
  | fuel + 1, '-' :: rest, _, val => evalArgExpr defs required fuel rest true val
  | fuel + 1, c :: rest, minus, val =>
    if isSymChar c then
      match resolve_def defs required (String.mk ((c :: rest).takeWhile isSymChar)) with
      | .error e => .error e
      | .ok v =>
        evalArgExpr defs required fuel ((c :: rest).dropWhile isSymChar) minus
          (val + if minus then -v else v)
    else .error .parseError

/-- `resolve_symbol(a, defs, required)`: an `int` argument is returned as is,
a string argument is evaluated as a signed sum of terms. -/
def resolve_symbol (a : Arg) (defs : Defs) (required : Bool) : Except AsmErr Int :=
  match a with
  | .num n => .ok n
  | .sym s => evalArgExpr defs required s.toList.length s.toList false 0

/-- An instruction encoder: `pc` (current word index), arguments, pending
label, `defs`, `phase`; returns the emitted words and the (possibly updated
by `equ`) `defs`. -/
abbrev Encoder := Nat → List Arg → Option String → Defs → Nat → Except AsmErr (List Nat × Defs)

def to_code_dc : Encoder := fun _ args _ defs phase => do
  let ws ← args.mapM (fun a => do
    let v ← resolve_symbol a defs (phase == 1)
    pure (pyMask v 16))
  pure (ws, defs)

def to_code_equ : Encoder := fun _ args label defs phase =>
  match label with
  | none => .error .noLabelForEqu
  | some lab =>
    match args with
    | [] => .error .indexError
    | a :: _ => do
      let v ← resolve_symbol a defs (phase == 1)
      pure ([], dset defs lab v)

def to_code_push_s : Encoder := fun _ args _ defs phase =>
  match args with
  | [] => .error .indexError
  | a :: _ => do
    let arg ← resolve_symbol a defs (phase == 1)
    if arg ≥ 0x1000 ∨ -arg > 0x1000 then .error .smallIntOverflow
    else pure ([0x1000 + pyMask arg 12], defs)

def to_code_push : Encoder := fun _ args _ defs phase =>
  match args with
  | [] => .error .indexError
  | a :: _ => do
    let arg ← resolve_symbol a defs (phase == 1)
    pure ([0x2000, pyMask arg 16], defs)

def to_code_load : Encoder := fun _ args _ defs phase =>
  match args with
  | [] => .error .indexError
  | a :: _ => do
    let arg ← resolve_symbol a defs (phase == 1)
    if arg < 0 ∨ arg ≥ 0x1000 then .error .dataAddrRange
    else pure ([0x3000 + pyMask arg 12], defs)

def to_code_store : Encoder := fun _ args _ defs phase =>
  match args with
  | [] => .error .indexError
  | a :: _ => do
    let arg ← resolve_symbol a defs (phase == 1)
    if arg < 0 ∨ arg ≥ 0x1000 then .error .dataAddrRange
    else pure ([0x4000 + pyMask arg 12], defs)

def to_code_load_ind : Encoder := fun _ args _ defs phase =>
  match args with
  | a0 :: a1 :: _ => do
    let arg ← resolve_symbol a0 defs (phase == 1)
    if arg < 0 ∨ arg ≥ 0x1000 then .error .dataAddrRange
    else do
      let size_arg ← resolve_symbol a1 defs (phase == 1)
      pure ([0x5000 + pyMask arg 12, pyMask size_arg 16], defs)
  | _ => .error .indexError

def to_code_store_ind : Encoder := fun _ args _ defs phase =>
  match args with
  | a0 :: a1 :: _ => do
    let arg ← resolve_symbol a0 defs (phase == 1)
    if arg < 0 ∨ arg ≥ 0x1000 then .error .dataAddrRange
    else do
      let size_arg ← resolve_symbol a1 defs (phase == 1)
      pure ([0x6000 + pyMask arg 12, pyMask size_arg 16], defs)
  | _ => .error .indexError

def to_code_not : Encoder := fun _ _ _ _ _ => .error .notImplemented

def to_code_jump : Encoder := fun pc args _ defs phase =>
  match args with
  | [] => .error .indexError
  | a :: _ => do
    let arg ← resolve_symbol a defs (phase == 1)
    pure ([0x9000 + pyMask (arg - (pc : Int)) 12], defs)

/-- The entries of `self.instr` that carry a fixed `"code"` field (used both
by the dispatch table and by the comparator lookup of the conditional
branches). -/
def fixedCode : String → Option (List Nat)
  | "stop" => some [0x0000]
  | "neg" => some [0x7000]
  | "abs" => some [0x7001]
  | "bitnot" => some [0x7002]
  | "sl" => some [0x8000]
  | "asr" => some [0x8001]
  | "add" => some [0x8002]
  | "sub" => some [0x8003]
  | "mult" => some [0x8004]
  | "div" => some [0x8005]
  | "mod" => some [0x8006]
  | "bitor" => some [0x8007]
  | "bitxor" => some [0x8008]
  | "bitand" => some [0x8009]
  | "eq" => some [0x800a]
  | "ne" => some [0x800b]
  | "gt" => some [0x800c]
  | "ge" => some [0x800d]
  | "lt" => some [0x800e]
  | "le" => some [0x800f]
  | "or" => some [0x8010]
  | "and" => some [0x8011]
  | "ret" => some [0xe000]
  | _ => none

/-- The comparator check of `jump.if.not` and friends: `args[0]` must name a
table entry with a single fixed code word in `0x8000..0x8fff`
(`code & 0xf000 == 0x8000`; all code words are below `0x10000`, so this is
`code / 0x1000 == 8`). -/
def comparatorCode (a : Arg) : Option Nat :=
  match a with
  | .num _ => none
  | .sym op =>
    match fixedCode op with
    | some [c] => if c / 0x1000 == 8 then some c else none
    | _ => none

def argName (a : Arg) : String :=
  match a with
  | .num n => toString n
  | .sym s => s

def to_code_jump_if_not : Encoder := fun pc args _ defs phase =>
  match args with
  | a0 :: a1 :: _ =>
    match comparatorCode a0 with
    | none => .error (.unknownOp (argName a0))
    | some c => do
      let arg ← resolve_symbol a1 defs (phase == 1)
      pure ([0xa000 + c % 256, pyMask (arg - (pc : Int)) 16], defs)
  | _ => .error .indexError

def to_code_do_jump_when_not : Encoder := fun pc args _ defs phase =>
  match args with
  | a0 :: a1 :: _ =>
    match comparatorCode a0 with
    | none => .error (.unknownOp (argName a0))
    | some c => do
      let arg ← resolve_symbol a1 defs (phase == 1)
      pure ([0xa100 + c % 256, pyMask (arg - (pc : Int)) 16], defs)
  | _ => .error .indexError

def to_code_dont_jump_when_not : Encoder := fun pc args _ defs phase =>
  match args with
  | a0 :: a1 :: _ =>
    match comparatorCode a0 with
    | none => .error (.unknownOp (argName a0))
    | some c => do
      let arg ← resolve_symbol a1 defs (phase == 1)
      pure ([0xa300 + c % 256, pyMask (arg - (pc : Int)) 16], defs)
  | _ => .error .indexError

def to_code_emit : Encoder := fun _ args _ defs phase =>
  match args with
  | a0 :: a1 :: a2 :: _ => do
    let id ← resolve_symbol a0 defs (phase == 1)
    if id < 0 ∨ id ≥ 0x1000 then .error .eventIdRange
    else do
      let addr ← resolve_symbol a1 defs (phase == 1)
      let size ← resolve_symbol a2 defs (phase == 1)
      pure ([0xb000 + pyMask id 12, pyMask addr 16, pyMask size 16], defs)
  | _ => .error .indexError

def to_code_callnat : Encoder := fun _ args _ defs phase =>
  match args with
  | [] => .error .indexError
  | a :: _ => do
    let arg ← resolve_symbol a defs (phase == 1)
    if arg < 0 ∨ arg ≥ 0x1000 then .error .nativeIdRange
    else pure ([0xc000 + pyMask arg 12], defs)

def to_code_callsub : Encoder := fun _ args _ defs phase =>
  match args with
  | [] => .error .indexError
  | a :: _ => do
    let arg ← resolve_symbol a defs (phase == 1)
    if arg < 0 ∨ arg ≥ 0x1000 then .error .subAddrRange
    else pure ([0xd000 + pyMask arg 12], defs)

inductive InstrDef where
  | fixed (code : List Nat)
  | enc (f : Encoder)

/-- `self.instr`: mnemonic → fixed code word(s) or encoder. -/
def instrTable (name : String) : Option InstrDef :=
  match fixedCode name with
  | some c => some (.fixed c)
  | none =>
    match name with
    | "dc" => some (.enc to_code_dc)
    | "equ" => some (.enc to_code_equ)
    | "push.s" => some (.enc to_code_push_s)
    | "push" => some (.enc to_code_push)
    | "load" => some (.enc to_code_load)
    | "store" => some (.enc to_code_store)
    | "load.ind" => some (.enc to_code_load_ind)
    | "store.ind" => some (.enc to_code_store_ind)
    | "not" => some (.enc to_code_not)
    | "jump" => some (.enc to_code_jump)
    | "jump.if.not" => some (.enc to_code_jump_if_not)
    | "do.jump.when.not" => some (.enc to_code_do_jump_when_not)
    | "dont.jump.when.not" => some (.enc to_code_dont_jump_when_not)
    | "emit" => some (.enc to_code_emit)
    | "callnat" => some (.enc to_code_callnat)
    | "callsub" => some (.enc to_code_callsub)
    | _ => none

/-- A parsed source line: a lone label, or an instruction with an optional
label (blank/comment lines are dropped by the blank regex). -/
inductive Line where
  | labelOnly (label : String)
  | instr (label : Option String) (opcode : String) (args : List Arg)

/-- The per-phase loop state: the bytecode so far, the `defs` dict, and the
pending label carried across lines. -/
structure AsmState where
  bytecode : List Nat
  defs : Defs
  label : Option String

/-- The end-of-line label fixup:
`if label is not None and defs[label] != len(bytecode): label = None`. -/
def fixLabel (st : AsmState) : AsmState :=
  match st.label with
  | none => st
  | some lab =>
    if dget st.defs lab ≠ some (st.bytecode.length : Int)
      then { st with label := none } else st

/-- One line of the `Assembler.assemble` walk. -/
def assembleLine (phase : Nat) (st : AsmState) (l : Line) : Except AsmErr AsmState :=
  match l with
  | .labelOnly lab =>
    .ok { st with label := some lab, defs := dset st.defs lab (st.bytecode.length : Int) }
  | .instr optLabel opcode args =>
    let st :=
      match optLabel with
      | some lab =>
        { st with label := some lab, defs := dset st.defs lab (st.bytecode.length : Int) }
      | none => st
    match instrTable opcode with
    | none => .error (.unknownInstruction opcode)
    | some (.fixed code) =>
      .ok (fixLabel { st with bytecode := st.bytecode ++ code })
    | some (.enc f) => do
      let (words, defs') ← f st.bytecode.length args st.label st.defs phase
      .ok (fixLabel { st with bytecode := st.bytecode ++ words, defs := defs' })

def assembleLines (phase : Nat) : List Line → AsmState → Except AsmErr AsmState
  | [], st => .ok st
  | l :: rest, st => do
    let st' ← assembleLine phase st l
    assembleLines phase rest st'

/-- `Assembler.node_definitions()`: seed `defs` from the remote node.
(`_topdata` is stored as `max_var_size` with a `getD 0` default standing for
Python `None` on a node that has not completed its handshake; none of the
programs considered uses `_topdata` on such a node.) -/
def node_definitions (n : RemoteNode) : Defs :=
  let defs : Defs :=
    n.named_variables.foldl
      (fun d name => dset d name ((dget n.var_offset name).getD 0 : Int)) []
  let defs := dset defs "_userdata" (n.var_total_size : Int)
  let defs := dset defs "_topdata" ((n.max_var_size.getD 0 : Nat) : Int)
  let defs := dset defs "_ev.init" 0xffff
  let defs := n.local_events.enum.foldl
    (fun d p => dset d ("_ev." ++ p.2) ((0xfffe : Int) - p.1)) defs
  n.native_functions.enum.foldl
    (fun d p => dset d ("_nf." ++ p.2) (p.1 : Int)) defs

/-- `Assembler.assemble()`: two passes over the lines with a shared `defs`;
the bytecode and the pending label restart at each pass. -/
def assemble (n : RemoteNode) (lines : List Line) : Except AsmErr (List Nat) := do
  let defs := node_definitions n
  let st0 ← assembleLines 0 lines ⟨[], defs, none⟩
  let st1 ← assembleLines 1 lines ⟨[], st0.defs, none⟩
  .ok st1.bytecode

end AsmDirect

namespace AsmThymio

/-- `resolve_symbol(a, defs)` of the second assembler copy
(`thymio/assembler.py`): pass 0 is signalled by `defs is None` and resolves
every string to 0; there is no expression evaluation, only a direct dict
lookup. -/
def resolve_symbol (a : Arg) (defs : Option Defs) : Except AsmErr Int :=
  match a with
  | .num n => .ok n
  | .sym s =>
    match defs with
    | none => .ok 0
    | some d =>
      match dget d s with
      | some v => .ok v
      | none => .error (.unknownSymbol s)

/-- `to_code_emit` of `thymio/assembler.py`: after the range check on `id`
and the resolution of `addr` and `size`, the emitted expression reads the
undefined local `arg` — at run time Python raises
`NameError: name 'arg' is not defined` instead of emitting
`0xb000 | (id & 0xfff)`. -/
def to_code_emit (_pc : Nat) (args : List Arg) (_label : Option String)
    (defs : Option Defs) : Except AsmErr (List Nat) :=
  match args with
  | a0 :: a1 :: a2 :: _ => do
    let id ← resolve_symbol a0 defs
    if id < 0 ∨ id ≥ 0x1000 then .error .eventIdRange
    else do
      let _addr ← resolve_symbol a1 defs
      let _size ← resolve_symbol a2 defs
      .error (.nameError "arg")
  | _ => .error .indexError

end AsmThymio

/-- C5: `push.s n` encodes to the single word `0x1000 | (n & 0xfff)` exactly
when `-0x1000 ≤ n < 0x1000` and raises `SmallIntOverflow` otherwise (the
source test is `arg >= 0x1000 or -arg > 0x1000`); in particular `n = -0x1000`
assembles to `0x1000` while `n = 0x1000` and `n = -0x1001` fail. -/
theorem c5_push_s_range_check :
    (∀ (pc : Nat) (n : Int) (lab : Option String) (defs : Defs) (phase : Nat),
      AsmDirect.to_code_push_s pc [.num n] lab defs phase
        = if -0x1000 ≤ n ∧ n < 0x1000
            then .ok ([0x1000 + pyMask n 12], defs)
            else .error .smallIntOverflow) ∧
    AsmDirect.to_code_push_s 0 [.num (-0x1000)] none [] 1 = .ok ([0x1000], []) ∧
    AsmDirect.to_code_push_s 0 [.num 0x1000] none [] 1 = .error .smallIntOverflow ∧
    AsmDirect.to_code_push_s 0 [.num (-0x1001)] none [] 1 = .error .smallIntOverflow := by
  refine ⟨?_, rfl, rfl, rfl⟩
  intro pc n lab defs phase
  by_cases hc : -0x1000 ≤ n ∧ n < 0x1000
  · rw [if_pos hc]
    show (if n ≥ 0x1000 ∨ -n > 0x1000
      then (.error .smallIntOverflow : Except AsmErr (List Nat × Defs))
      else pure ([0x1000 + pyMask n 12], defs)) = _
    rw [if_neg (by omega)]
    rfl
  · rw [if_neg hc]
    show (if n ≥ 0x1000 ∨ -n > 0x1000
      then (.error .smallIntOverflow : Except AsmErr (List Nat × Defs))
      else pure ([0x1000 + pyMask n 12], defs)) = _
    rw [if_pos (by omega)]

/-- C6: the `emit` encoder of `thymiodirect/assembler.py` emits the three
words `0xb000 | (id & 0xfff), addr & 0xffff, size & 0xffff` for an in-range
id, but the copy in `thymio/assembler.py` raises `NameError` on the undefined
local `arg` for every in-range `emit` instead of emitting: the claim holds
for one copy and is broken by a slip in the other (its `EventIdRange` check
for an out-of-range id still fires first). -/
theorem c6_emit_undefined_arg_bug :
    AsmDirect.to_code_emit 0 [.num 1, .num 0, .num 0] none [] 1
      = .ok ([0xb001, 0, 0], []) ∧
    (∀ (pc : Nat) (id addr size : Int) (lab : Option String) (defs : Defs) (phase : Nat),
      0 ≤ id → id < 0x1000 →
      AsmDirect.to_code_emit pc [.num id, .num addr, .num size] lab defs phase
        = .ok ([0xb000 + pyMask id 12, pyMask addr 16, pyMask size 16], defs)) ∧
    AsmThymio.to_code_emit 0 [.num 1, .num 0, .num 0] none (some [])
      = .error (.nameError "arg") ∧
    AsmThymio.to_code_emit 0 [.num 0x1000, .num 0, .num 0] none (some [])
      = .error .eventIdRange := by
  refine ⟨rfl, ?_, rfl, rfl⟩
  intro pc id addr size lab defs phase h0 h1
  show (if id < 0 ∨ id ≥ 0x1000
    then (.error .eventIdRange : Except AsmErr (List Nat × Defs))
    else pure ([0xb000 + pyMask id 12, pyMask addr 16, pyMask size 16], defs)) = _
  rw [if_neg (by omega)]
  rfl

/-- Closed instance of the general part of C6's emit encoding. -/
theorem c6_emit_undefined_arg_bug_witness :
    AsmDirect.to_code_emit 7 [.num 2, .num 3, .num 4] none [] 1
      = .ok ([0xb002, 3, 4], []) :=
  (c6_emit_undefined_arg_bug.2.1 7 2 3 4 none [] 1 (by decide) (by decide)).trans rfl

/-- C7: `jump t` emits the single word `0x9000 | ((t - pc) & 0xfff)` with
`pc` the word index before the instruction (the driver passes
`len(bytecode)`); for the program `dc end; l: push.s 1; jump l; end:` the
assembled bytecode is `[3, 0x1001, 0x9fff]`, whose jump word is `0x9fff`. -/
theorem c7_jump_pc_relative :
    (∀ (pc : Nat) (t : Int) (lab : Option String) (defs : Defs) (phase : Nat),
      AsmDirect.to_code_jump pc [.num t] lab defs phase
        = .ok ([0x9000 + pyMask (t - (pc : Int)) 12], defs)) ∧
    AsmDirect.assemble (RemoteNode.init none none)
        [AsmDirect.Line.instr none "dc" [.sym "end"],
         AsmDirect.Line.instr (some "l") "push.s" [.num 1],
         AsmDirect.Line.instr none "jump" [.sym "l"],
         AsmDirect.Line.labelOnly "end"]
      = .ok [3, 0x1001, 0x9fff] := by
  refine ⟨fun pc t lab defs phase => rfl, rfl⟩

end ThymioPy
